import Mathlib

/-
Verification of the SNMP v2c client protocol engine (snmp.go).

Shallow embedding conventions:
  * Go `int`, `int32` and ASN.1 class/tag fields become `Int`.
  * Go `[]byte` becomes `List Nat` (each element a byte value 0..255);
    a Go `string` result is modelled as the list of its byte values.
  * Go `[]int` (asn1.ObjectIdentifier) becomes `List Int`.
  * fallible Go code returns `Option`; a Go runtime panic that the source
    can actually reach (index out of range, unsupported request type) is
    modelled as `none` or as an explicit `panicked` result constructor.
-/

namespace Snmp

/-- Embedding of asn1.RawValue: fields Class, Tag, IsCompound, Bytes,
FullBytes, in source order. -/
structure RawValue where
  Class : Int
  Tag : Int
  IsCompound : Bool
  Bytes : List Nat
  FullBytes : List Nat
deriving DecidableEq

/-- Reserved binding value null = RawValue{Class: 0, Tag: 5}. -/
def null : RawValue := ⟨0, 5, false, [], []⟩

/-- Reserved binding value noSuchObject = RawValue{Class: 2, Tag: 0}. -/
def noSuchObject : RawValue := ⟨2, 0, false, [], []⟩

/-- Reserved binding value noSuchInstance = RawValue{Class: 2, Tag: 1}. -/
def noSuchInstance : RawValue := ⟨2, 1, false, [], []⟩

/-- Reserved binding value endOfMibView = RawValue{Class: 2, Tag: 2}. -/
def endOfMibView : RawValue := ⟨2, 2, false, [], []⟩

/-- Binding: an assignment to a managed object, Name plus Value. -/
structure Binding where
  Name : List Int
  Value : RawValue
deriving DecidableEq

/-- Embedding of convertClass: converts the encoding of values in an SNMP
response from the custom application class (Class 1) to the corresponding
universal class.  The Go code writes v.FullBytes[0]; when FullBytes is
empty that write is an index-out-of-range panic, modelled here as `none`. -/
def convertClass (v : RawValue) : Option RawValue :=
  if v.Class ≠ 1 then
    -- Not a custom type.
    some v
  else if v.Tag = 0 ∨ v.Tag = 4 then
    -- IpAddress / Opaque: IMPLICIT OCTET STRING
    match v.FullBytes with
    | [] => none
    | _ :: rest => some { v with Class := 0, Tag := 4, FullBytes := 0x04 :: rest }
  else if v.Tag = 1 ∨ v.Tag = 2 ∨ v.Tag = 3 ∨ v.Tag = 6 then
    -- Counter32 / Unsigned32 / TimeTicks / Counter64: IMPLICIT INTEGER
    match v.FullBytes with
    | [] => none
    | _ :: rest => some { v with Class := 0, Tag := 2, FullBytes := 0x02 :: rest }
  else
    some v

/-- Loop body of toString: checks every byte is printable ASCII, copying
into the output buffer; the first unprintable byte aborts with failure. -/
def printableLoop : List Nat → Option (List Nat)
  | [] => some []
  | c :: cs =>
    if c < 0x20 ∨ 0x7e < c then none
    else (printableLoop cs).map (fun buf => c :: buf)

/-- Embedding of toString: attempts to convert a byte string to an ascii
string of printable characters. The first byte must equal the length of
the remainder; every remaining byte must lie in [0x20, 0x7e]. -/
def toString (x : List Nat) : Option (List Nat) :=
  match x with
  | [] => none
  | b :: rest =>
    if b ≠ rest.length then none
    else printableLoop rest

/-- Loop shared by the three branches of Binding.less: walk the two
component lists in lockstep; the first differing component decides
(`some true` or `some false`); `none` means the loop ran to the end of the
shorter list with all compared components equal. -/
def lessScan : List Int → List Int → Option Bool
  | a :: as, b :: bs =>
    if a < b then some true
    else if a = b then lessScan as bs
    else some false
  | _, _ => none

/-- Embedding of Binding.less: checks if a precedes b in the MIB tree.
Mirrors the Go three-way case split on the lengths of the names; in each
branch the loop compares components pairwise and the fall-through value
after the loop is true (shorter), false (equal length) or false (longer). -/
def Binding.less (a b : Binding) : Bool :=
  if a.Name.length < b.Name.length then
    match lessScan a.Name b.Name with
    | some r => r
    | none => true
  else if a.Name.length = b.Name.length then
    match lessScan a.Name b.Name with
    | some r => r
    | none =>
      -- Identical, so not less.
      false
  else
    match lessScan a.Name b.Name with
    | some r => r
    | none => false

/-- Embedding of Request. The Go field Type (a string, one of Get,
GetNext, GetBulk) is named Typ here because Type is a Lean keyword. -/
structure Request where
  ID : Int
  Typ : String
  Bindings : List Binding
  NonRepeaters : Int
  MaxRepetitions : Int
deriving DecidableEq

/-- Embedding of Response. -/
structure Response where
  ID : Int
  ErrorStatus : Int
  ErrorIndex : Int
  Bindings : List Binding
deriving DecidableEq

/-- Payload of the anonymous PDU struct used for Get and GetNext requests:
{RequestID, ErrorStatus, ErrorIndex, Bindings}. -/
structure GetPDU where
  RequestID : Int
  ErrorStatus : Int
  ErrorIndex : Int
  Bindings : List Binding
deriving DecidableEq

/-- Payload of the anonymous PDU struct used for GetBulk requests:
{RequestID, NonRepeaters, MaxRepetitions, Bindings}. -/
structure GetBulkPDU where
  RequestID : Int
  NonRepeaters : Int
  MaxRepetitions : Int
  Bindings : List Binding
deriving DecidableEq

/-- The operation-specific PDU assembled by RoundTrip, together with its
application-class tag (0 for Get, 1 for GetNext, 5 for GetBulk). -/
inductive PDU where
  | get (tag : Int) (p : GetPDU)
  | getBulk (p : GetBulkPDU)
deriving DecidableEq

/-- The prepare step of RoundTrip: every binding value in the request is
overwritten with null before encoding. -/
def nullBindings (bs : List Binding) : List Binding :=
  bs.map (fun b => { b with Value := null })

/-- The encode step of RoundTrip: builds the operation-specific PDU from
the request, switching on the request type.  Go sets the Get and GetNext
ErrorStatus and ErrorIndex to their zero values, and for GetBulk assigns
NonRepeaters := 0 and MaxRepetitions := req.MaxRepetitions literally as in
the source.  An unsupported type panics in Go, modelled as `none`. -/
def encodePDU (req : Request) : Option PDU :=
  let bs := nullBindings req.Bindings
  if req.Typ = "Get" then
    some (.get 0 { RequestID := req.ID, ErrorStatus := 0, ErrorIndex := 0, Bindings := bs })
  else if req.Typ = "GetNext" then
    some (.get 1 { RequestID := req.ID, ErrorStatus := 0, ErrorIndex := 0, Bindings := bs })
  else if req.Typ = "GetBulk" then
    some (.getBulk { RequestID := req.ID, NonRepeaters := 0,
                     MaxRepetitions := req.MaxRepetitions, Bindings := bs })
  else
    none

/-- Embedding of hasPrefix: tests if the given object instance id falls
within the mib subtree defined by the second argument.  The Go loop over
the indices of the second list is rendered as structural recursion. -/
def hasPrefix : List Int → List Int → Bool
  | _, [] => true
  | [], _ :: _ => false
  | i :: is, p :: ps => i == p && hasPrefix is ps

/-- The local closure eq of check: two raw values are compared by Class
and Tag only. -/
def eqClassTag (a b : RawValue) : Bool :=
  a.Class == b.Class && a.Tag == b.Tag

/-- Structured record of the error messages check can produce.  The
constructor invalidResponse models the deferred wrapping of every error
with the invalid response marker; bindingContext models the wrapping of a
server error with the request binding named for context. -/
inductive CheckErr where
  | idMismatch
  | serverError (status : Int)
  | bindingContext (b : Binding) (e : CheckErr)
  | noBindings
  | missingBindings
  | extraneousBindings
  | noSuchObjectErr (name : List Int)
  | noSuchInstanceErr (name : List Int)
  | endOfMibViewErr (name : List Int)
  | unexpectedNull (name : List Int)
  | missingRootErr (name : List Int)
  | invalidResponse (e : CheckErr)
deriving DecidableEq

/-- Outcome of check: success, a returned error, or a Go runtime panic. -/
inductive CheckResult where
  | ok
  | fail (e : CheckErr)
  | panicked
deriving DecidableEq

/-- The per-binding loop of check, in source order: the four reserved
values are errors, then the name must carry the [1, 3] root. -/
def checkBindings : List Binding → CheckResult
  | [] => .ok
  | b :: rest =>
    if eqClassTag b.Value noSuchObject then .fail (.noSuchObjectErr b.Name)
    else if eqClassTag b.Value noSuchInstance then .fail (.noSuchInstanceErr b.Name)
    else if eqClassTag b.Value endOfMibView then .fail (.endOfMibViewErr b.Name)
    else if eqClassTag b.Value null then .fail (.unexpectedNull b.Name)
    else if hasPrefix b.Name [1, 3] then checkBindings rest
    else .fail (.missingRootErr b.Name)

/-- Body of check before the deferred wrapping.  The server-error branch
guards the index against len(resp.Bindings) but then reads
req.Bindings[i]; when i is within the response bindings yet beyond the
request bindings, the Go read panics, modelled by `panicked`. -/
def checkInner (resp : Response) (req : Request) : CheckResult :=
  if resp.ID ≠ req.ID then .fail .idMismatch
  else if resp.ErrorStatus ≠ 0 then
    if 0 ≤ resp.ErrorIndex ∧ resp.ErrorIndex < (resp.Bindings.length : Int) then
      match req.Bindings.get? resp.ErrorIndex.toNat with
      | some b => .fail (.bindingContext b (.serverError resp.ErrorStatus))
      | Option.none => .panicked
    else .fail (.serverError resp.ErrorStatus)
  else if resp.Bindings.length = 0 then .fail .noBindings
  else if resp.Bindings.length < req.Bindings.length then .fail .missingBindings
  else if resp.Bindings.length > req.Bindings.length ∧ req.Typ ≠ "GetBulk" then
    .fail .extraneousBindings
  else checkBindings resp.Bindings

/-- The deferred function of check: a non-nil error is wrapped with the
invalid response marker. -/
def wrapResult : CheckResult → CheckResult
  | .fail e => .fail (.invalidResponse e)
  | r => r

/-- Embedding of check: checks the response PDU for basic correctness. -/
def check (resp : Response) (req : Request) : CheckResult :=
  wrapResult (checkInner resp req)

/-- Embedding of the errorText map: the set of response errors specified
in RFC 3416; a lookup miss yields the zero value, the empty string. -/
def errorText (e : Int) : String :=
  if e = 0 then "no error"
  else if e = 1 then "too big"
  else if e = 2 then "no such name"
  else if e = 3 then "bad value"
  else if e = 4 then "read only"
  else if e = 5 then "gen err"
  else if e = 6 then "no access"
  else if e = 7 then "wrong type"
  else if e = 8 then "wrong length"
  else if e = 9 then "wrong encoding"
  else if e = 10 then "wrong value"
  else if e = 11 then "no creation"
  else if e = 12 then "inconsistent value"
  else if e = 13 then "resource unavailable"
  else if e = 14 then "commit failed"
  else if e = 15 then "undo failed"
  else if e = 16 then "authorization error"
  else if e = 17 then "not writable"
  else if e = 18 then "inconsistent name"
  else ""

/-- Decimal rendering of an Int, matching the Go verb used in the code
("code %d") on every integer. -/
def intStr (i : Int) : String :=
  if i < 0 then "-" ++ Nat.repr i.natAbs else Nat.repr i.natAbs

/-- Embedding of errorStatus.String: the text form of error e, with the
numeric fallback when the table lookup yields the empty string. -/
def errorStatusString (e : Int) : String :=
  if errorText e = "" then "code " ++ intStr e else errorText e

/-- A binding passes the per-binding loop of check when its value matches
none of the four reserved (Class, Tag) pairs and its name carries the
[1, 3] root. -/
def bindingOK (b : Binding) : Bool :=
  !eqClassTag b.Value noSuchObject && !eqClassTag b.Value noSuchInstance &&
  !eqClassTag b.Value endOfMibView && !eqClassTag b.Value null &&
  hasPrefix b.Name [1, 3]

/-- The error the per-binding loop of check reports for a failing binding,
in the order the rules are tried. -/
def bindingErr (b : Binding) : CheckErr :=
  if eqClassTag b.Value noSuchObject then .noSuchObjectErr b.Name
  else if eqClassTag b.Value noSuchInstance then .noSuchInstanceErr b.Name
  else if eqClassTag b.Value endOfMibView then .endOfMibViewErr b.Name
  else if eqClassTag b.Value null then .unexpectedNull b.Name
  else .missingRootErr b.Name

/-- Concrete GetBulk request with NonRepeaters 1, for the C1 evaluation. -/
def reqC1 : Request := ⟨1, "GetBulk", [], 1, 2⟩

/-- Concrete GetBulk request for the C1 witness. -/
def reqC1w : Request := ⟨5, "GetBulk", [], 3, 7⟩

/-- Concrete request with no bindings, for the C2 failing input. -/
def reqC2 : Request := ⟨7, "Get", [], 0, 0⟩

/-- Concrete error response whose ErrorIndex 0 is within its own binding
list but beyond the (empty) request binding list, for the C2 failing
input. -/
def respC2 : Response := ⟨7, 2, 0, [⟨[1, 3], null⟩]⟩

/-- Concrete binding whose name is a strict front segment of the name of
bC3b, for the C3 witness. -/
def bC3a : Binding := ⟨[1, 3], null⟩

/-- Concrete binding extending the name of bC3a, for the C3 witness. -/
def bC3b : Binding := ⟨[1, 3, 6], null⟩

/-- Concrete request for the C4 witness. -/
def reqC4w : Request := ⟨1, "Get", [], 0, 0⟩

/-- Concrete response with zero bindings, for the C4 witness. -/
def respC4w : Response := ⟨1, 0, 0, []⟩

/-- Concrete application-class raw value with tag 0, for the C6 witness. -/
def vC6 : RawValue := ⟨1, 0, false, [], [0x40, 9]⟩

/-- Concrete raw value outside the rewritten class and tag pairs, for the
C10 witness. -/
def vC10 : RawValue := ⟨0, 5, true, [1], []⟩

/-- Concrete one-binding request for the C8 witness. -/
def reqC8w : Request := ⟨2, "Get", [⟨[1, 3, 6], null⟩], 0, 0⟩

/-- Concrete clean response matching reqC8w, for the C8 witness. -/
def respC8w : Response := ⟨2, 0, 0, [⟨[1, 3, 6], ⟨0, 4, false, [], [4, 0]⟩⟩]⟩

end Snmp

namespace Snmp

theorem printableLoop_some_iff (l m : List Nat) :
    printableLoop l = some m ↔ m = l ∧ ∀ c ∈ l, 0x20 ≤ c ∧ c ≤ 0x7e := by
  induction l generalizing m with
  | nil =>
    simp [printableLoop, eq_comm]
  | cons c cs ih =>
    simp only [printableLoop]
    split
    case isTrue h =>
      simp only [List.mem_cons]
      constructor
      · intro hcontra; cases hcontra
      · rintro ⟨-, hall⟩
        have := hall c (Or.inl rfl)
        omega
    case isFalse h =>
      push_neg at h
      constructor
      · intro hmap
        rcases Option.map_eq_some'.mp hmap with ⟨m0, hm0, rfl⟩
        rcases (ih m0).mp hm0 with ⟨rfl, hall⟩
        refine ⟨rfl, ?_⟩
        intro x hx
        rcases List.mem_cons.mp hx with rfl | hx
        · omega
        · exact hall x hx
      · rintro ⟨rfl, hall⟩
        have hcs : printableLoop cs = some cs := by
          refine (ih cs).mpr ⟨rfl, ?_⟩
          intro x hx; exact hall x (List.mem_cons_of_mem _ hx)
        simp [hcs]


/-- C5: toString succeeds exactly on a nonempty input whose first byte
equals the count of the remaining bytes with every remaining byte in the
printable range, returning those bytes; length-prefixed printable strings
round-trip; a payload with an unprintable byte yields no result. -/
theorem c5_toString :
    (∀ x s : List Nat, Snmp.toString x = some s ↔
      ∃ b rest, x = b :: rest ∧ b = rest.length ∧
        (∀ c ∈ rest, 0x20 ≤ c ∧ c ≤ 0x7e) ∧ s = rest)
    ∧ (∀ s : List Nat, s.length ≤ 255 → (∀ c ∈ s, 0x20 ≤ c ∧ c ≤ 0x7e) →
      Snmp.toString (s.length :: s) = some s)
    ∧ (∀ (b : Nat) (rest : List Nat) (c : Nat), c ∈ rest →
      (c < 0x20 ∨ 0x7e < c) → Snmp.toString (b :: rest) = none) := by
  have hmain : ∀ x s : List Nat, Snmp.toString x = some s ↔
      ∃ b rest, x = b :: rest ∧ b = rest.length ∧
        (∀ c ∈ rest, 0x20 ≤ c ∧ c ≤ 0x7e) ∧ s = rest := by
    intro x s
    cases x with
    | nil => simp [Snmp.toString]
    | cons b rest =>
      simp only [Snmp.toString]
      split
      case isTrue h =>
        constructor
        · intro hc; exact absurd hc (by simp)
        · rintro ⟨b0, r0, heq, hlen, -, -⟩
          cases heq
          exact absurd hlen h
      case isFalse h =>
        push_neg at h
        rw [printableLoop_some_iff]
        constructor
        · rintro ⟨heq, hall⟩
          exact ⟨b, rest, rfl, h, hall, heq⟩
        · rintro ⟨b0, r0, heq, -, hall, rfl⟩
          cases heq
          exact ⟨rfl, hall⟩
  refine ⟨hmain, ?_, ?_⟩
  · intro s hlen hall
    exact (hmain _ s).mpr ⟨s.length, s, rfl, rfl, hall, rfl⟩
  · intro b rest c hc hbad
    cases hres : Snmp.toString (b :: rest) with
    | none => rfl
    | some s =>
      rcases (hmain _ s).mp hres with ⟨b0, r0, heq, -, hall, -⟩
      cases heq
      have := hall c hc
      omega


theorem convertClass_app04 (v : RawValue) (hc : v.Class = 1)
    (ht : v.Tag = 0 ∨ v.Tag = 4) (b : Nat) (rest : List Nat)
    (hfb : v.FullBytes = b :: rest) :
    convertClass v = some { v with Class := 0, Tag := 4, FullBytes := 0x04 :: rest } := by
  rcases ht with ht | ht <;> simp [convertClass, hc, ht, hfb]

theorem convertClass_appInt (v : RawValue) (hc : v.Class = 1)
    (ht : v.Tag = 1 ∨ v.Tag = 2 ∨ v.Tag = 3 ∨ v.Tag = 6) (b : Nat) (rest : List Nat)
    (hfb : v.FullBytes = b :: rest) :
    convertClass v = some { v with Class := 0, Tag := 2, FullBytes := 0x02 :: rest } := by
  rcases ht with ht | ht | ht | ht <;> simp [convertClass, hc, ht, hfb]

theorem convertClass_other (v : RawValue)
    (h : ¬(v.Class = 1 ∧ (v.Tag = 0 ∨ v.Tag = 1 ∨ v.Tag = 2 ∨ v.Tag = 3 ∨
      v.Tag = 4 ∨ v.Tag = 6))) : convertClass v = some v := by
  by_cases hc : v.Class = 1
  · push_neg at h
    have ht := h hc
    push_neg at ht
    obtain ⟨h0, h1, h2, h3, h4, h6⟩ := ht
    simp [convertClass, hc, h0, h1, h2, h3, h4, h6]
  · simp [convertClass, hc]

/-- C6: on application-class values with tag 0 or 4 convertClass yields
universal class with the octet-string tag and leading byte 0x04; with tag
1, 2, 3 or 6 it yields universal class with the integer tag and leading
byte 0x02; every other class and tag pair passes through unchanged. -/
theorem c6_convertClass (v : RawValue) :
    (v.Class = 1 → (v.Tag = 0 ∨ v.Tag = 4) → ∀ b rest, v.FullBytes = b :: rest →
      convertClass v = some { v with Class := 0, Tag := 4, FullBytes := 0x04 :: rest })
    ∧ (v.Class = 1 → (v.Tag = 1 ∨ v.Tag = 2 ∨ v.Tag = 3 ∨ v.Tag = 6) →
      ∀ b rest, v.FullBytes = b :: rest →
      convertClass v = some { v with Class := 0, Tag := 2, FullBytes := 0x02 :: rest })
    ∧ (¬(v.Class = 1 ∧ (v.Tag = 0 ∨ v.Tag = 1 ∨ v.Tag = 2 ∨ v.Tag = 3 ∨
        v.Tag = 4 ∨ v.Tag = 6)) → convertClass v = some v) :=
  ⟨fun hc ht b rest hfb => convertClass_app04 v hc ht b rest hfb,
   fun hc ht b rest hfb => convertClass_appInt v hc ht b rest hfb,
   fun h => convertClass_other v h⟩

/-- C7: convertClass is idempotent, in the Kleisli sense for the Option
used to model the panic on an empty encoded form. -/
theorem c7_convertClass_idem (v : RawValue) :
    (convertClass v).bind convertClass = convertClass v := by
  by_cases hc : v.Class = 1
  · by_cases h04 : v.Tag = 0 ∨ v.Tag = 4
    · cases hfb : v.FullBytes with
      | nil => rcases h04 with ht | ht <;> simp [convertClass, hc, ht, hfb]
      | cons b rest => rcases h04 with ht | ht <;> simp [convertClass, hc, ht, hfb]
    · by_cases h6 : v.Tag = 1 ∨ v.Tag = 2 ∨ v.Tag = 3 ∨ v.Tag = 6
      · cases hfb : v.FullBytes with
        | nil => rcases h6 with ht | ht | ht | ht <;> simp [convertClass, hc, ht, hfb]
        | cons b rest => rcases h6 with ht | ht | ht | ht <;> simp [convertClass, hc, ht, hfb]
      · simp [convertClass, hc, h04, h6]
  · simp [convertClass, hc]

/-- C10: on a nonempty encoded form convertClass always returns a value
that can differ only in Class, Tag and the first encoded byte, keeping
the tail of the encoded form, the contents bytes and the compound flag;
and every value outside the six rewritten application pairs passes
through untouched, an empty encoded form included. -/
theorem c10_frame (v : RawValue) :
    (∀ b rest, v.FullBytes = b :: rest → ∃ w, convertClass v = some w ∧
      w.FullBytes.tail = rest ∧ w.FullBytes.length = v.FullBytes.length ∧
      w.Bytes = v.Bytes ∧ w.IsCompound = v.IsCompound)
    ∧ (¬(v.Class = 1 ∧ (v.Tag = 0 ∨ v.Tag = 1 ∨ v.Tag = 2 ∨ v.Tag = 3 ∨
        v.Tag = 4 ∨ v.Tag = 6)) → convertClass v = some v) := by
  constructor
  · intro b rest hfb
    by_cases hc : v.Class = 1
    · by_cases h04 : v.Tag = 0 ∨ v.Tag = 4
      · refine ⟨{ v with Class := 0, Tag := 4, FullBytes := 0x04 :: rest }, ?_, by simp [hfb]⟩
        exact convertClass_app04 v hc h04 b rest hfb
      · by_cases h6 : v.Tag = 1 ∨ v.Tag = 2 ∨ v.Tag = 3 ∨ v.Tag = 6
        · refine ⟨{ v with Class := 0, Tag := 2, FullBytes := 0x02 :: rest }, ?_, by simp [hfb]⟩
          exact convertClass_appInt v hc h6 b rest hfb
        · refine ⟨v, ?_, by simp [hfb]⟩
          simp [convertClass, hc, h04, h6]
    · exact ⟨v, by simp [convertClass, hc], by simp [hfb]⟩
  · intro h
    exact convertClass_other v h


theorem lessScan_swap (a : List Int) : ∀ b : List Int,
    lessScan b a = (lessScan a b).map not := by
  induction a with
  | nil =>
    intro b
    cases b <;> simp [lessScan]
  | cons x xs ih =>
    intro b
    cases b with
    | nil => simp [lessScan]
    | cons y ys =>
      rcases lt_trichotomy x y with h | h | h
      · have h1 : ¬ y < x := by omega
        have h2 : y ≠ x := by omega
        simp [lessScan, h, h1, h2]
      · subst h
        simp only [lessScan, lt_self_iff_false, if_false, if_true, eq_self_iff_true]
        exact ih ys
      · have h1 : ¬ x < y := by omega
        have h2 : x ≠ y := by omega
        simp [lessScan, h, h1, h2]

theorem lessScan_append_self (a : List Int) : ∀ t : List Int,
    lessScan a (a ++ t) = none := by
  induction a with
  | nil => intro t; cases t <;> simp [lessScan]
  | cons x xs ih => intro t; simp [lessScan, ih]


theorem less_eq_getD (a b : Binding) :
    a.less b = (lessScan a.Name b.Name).getD (decide (a.Name.length < b.Name.length)) := by
  simp only [Binding.less]
  rcases lt_trichotomy a.Name.length b.Name.length with h | h | h
  · rw [if_pos h]
    cases hs : lessScan a.Name b.Name <;> simp [h]
  · rw [if_neg (by omega), if_pos h]
    cases hs : lessScan a.Name b.Name <;> simp [h]
  · rw [if_neg (by omega), if_neg (by omega)]
    cases hs : lessScan a.Name b.Name <;> simp [show ¬ a.Name.length < b.Name.length by omega]

/-- C3: less is asymmetric; a binding whose name extends by a nonempty
tail is strictly above its front segment and never below it; bindings
with identical names are unordered in both directions. -/
theorem c3_less (a b : Binding) :
    ¬(a.less b = true ∧ b.less a = true)
    ∧ (∀ t : List Int, t ≠ [] → b.Name = a.Name ++ t →
        a.less b = true ∧ b.less a = false)
    ∧ (a.Name = b.Name → a.less b = false ∧ b.less a = false) := by
  refine ⟨?_, ?_, ?_⟩
  · rintro ⟨hab, hba⟩
    rw [less_eq_getD] at hab hba
    rw [lessScan_swap] at hba
    cases hs : lessScan a.Name b.Name with
    | none =>
      rw [hs] at hab hba
      simp at hab hba
      omega
    | some r =>
      rw [hs] at hab hba
      cases r <;> simp_all
  · intro t ht hbn
    have ht0 : 0 < t.length := List.length_pos.mpr ht
    constructor
    · rw [less_eq_getD, hbn, lessScan_append_self a.Name t]
      simp only [Option.getD_none, decide_eq_true_eq, List.length_append]
      omega
    · rw [less_eq_getD, lessScan_swap, hbn, lessScan_append_self a.Name t]
      simp only [Option.map_none', Option.getD_none, List.length_append,
        decide_eq_false_iff_not]
      omega
  · intro h
    have hnone : lessScan b.Name b.Name = none := by
      have h2 := lessScan_append_self b.Name []
      rwa [List.append_nil] at h2
    constructor
    · rw [less_eq_getD, h, hnone]
      simp
    · rw [less_eq_getD, lessScan_swap, h, hnone]
      simp


theorem checkInner_pass (resp : Response) (req : Request)
    (hid : resp.ID = req.ID) (hst : resp.ErrorStatus = 0)
    (hnz : resp.Bindings ≠ [])
    (hmiss : ¬ resp.Bindings.length < req.Bindings.length)
    (hext : ¬(resp.Bindings.length > req.Bindings.length ∧ req.Typ ≠ "GetBulk")) :
    checkInner resp req = checkBindings resp.Bindings := by
  unfold checkInner
  rw [if_neg (by simp [hid]), if_neg (by simp [hst]),
    if_neg (by simp [List.length_eq_zero, hnz]), if_neg hmiss, if_neg hext]

theorem wrapResult_eq_ok (r : CheckResult) : wrapResult r = .ok ↔ r = .ok := by
  cases r <;> simp [wrapResult]

/-- C2 failing input: with matching ids, a nonzero error status, and an
error index inside the response bindings but beyond the request bindings,
check reaches the out-of-range read of the request binding list, a Go
runtime panic. -/
theorem c2_panic : check respC2 reqC2 = CheckResult.panicked := by decide

/-- C4: with matching ids and error status 0, an empty response binding
list is rejected as no bindings, a shorter one as missing bindings, a
longer one as extraneous bindings unless the request is GetBulk, in which
case check proceeds to the per-binding rules and succeeds when they do. -/
theorem c4_bindingCounts (resp : Response) (req : Request)
    (hid : resp.ID = req.ID) (hst : resp.ErrorStatus = 0) :
    (resp.Bindings = [] → check resp req = .fail (.invalidResponse .noBindings))
    ∧ (resp.Bindings ≠ [] → resp.Bindings.length < req.Bindings.length →
        check resp req = .fail (.invalidResponse .missingBindings))
    ∧ (resp.Bindings.length > req.Bindings.length → req.Typ ≠ "GetBulk" →
        check resp req = .fail (.invalidResponse .extraneousBindings))
    ∧ (req.Typ = "GetBulk" → resp.Bindings.length > req.Bindings.length →
        check resp req = wrapResult (checkBindings resp.Bindings)
        ∧ (checkBindings resp.Bindings = .ok → check resp req = .ok)) := by
  refine ⟨?_, ?_, ?_, ?_⟩
  · intro hb
    unfold check checkInner
    rw [if_neg (by simp [hid]), if_neg (by simp [hst]), if_pos (by simp [hb])]
    rfl
  · intro hnz hlt
    unfold check checkInner
    rw [if_neg (by simp [hid]), if_neg (by simp [hst]),
      if_neg (by simp [List.length_eq_zero, hnz]), if_pos hlt]
    rfl
  · intro hgt hty
    have hnz : resp.Bindings ≠ [] := by
      intro hcontra
      rw [hcontra] at hgt
      simp at hgt
    unfold check checkInner
    rw [if_neg (by simp [hid]), if_neg (by simp [hst]),
      if_neg (by simp [List.length_eq_zero, hnz]), if_neg (by omega), if_pos ⟨hgt, hty⟩]
    rfl
  · intro hty hgt
    have hnz : resp.Bindings ≠ [] := by
      intro hcontra
      rw [hcontra] at hgt
      simp at hgt
    have hpass := checkInner_pass resp req hid hst hnz (by omega) (by simp [hty])
    refine ⟨by unfold check; rw [hpass], ?_⟩
    intro hok
    unfold check
    rw [hpass, hok]
    rfl


theorem check_fail_wrapped (resp : Response) (req : Request) (e : CheckErr)
    (h : check resp req = .fail e) : ∃ e0, e = .invalidResponse e0 := by
  unfold check at h
  cases hr : checkInner resp req with
  | ok => rw [hr] at h; exact absurd h (by simp [wrapResult])
  | panicked => rw [hr] at h; exact absurd h (by simp [wrapResult])
  | fail e0 =>
    rw [hr] at h
    simp only [wrapResult] at h
    injection h with h2
    exact ⟨e0, h2.symm⟩

theorem checkBindings_cons (b : Binding) (rest : List Binding) :
    checkBindings (b :: rest) =
      if bindingOK b then checkBindings rest else .fail (bindingErr b) := by
  simp only [checkBindings, bindingOK, bindingErr]
  cases h1 : eqClassTag b.Value noSuchObject <;>
    cases h2 : eqClassTag b.Value noSuchInstance <;>
      cases h3 : eqClassTag b.Value endOfMibView <;>
        cases h4 : eqClassTag b.Value null <;>
          cases h5 : hasPrefix b.Name [1, 3] <;>
            simp [h1, h2, h3, h4, h5]

theorem checkBindings_ok_iff (bs : List Binding) :
    checkBindings bs = .ok ↔ ∀ b ∈ bs, bindingOK b = true := by
  induction bs with
  | nil => simp [checkBindings]
  | cons b rest ih =>
    rw [checkBindings_cons]
    by_cases h : bindingOK b
    · simp [h, ih]
    · simp only [Bool.not_eq_true] at h
      simp [h]

theorem checkBindings_firstFail (p : List Binding) : ∀ (b : Binding) (s : List Binding),
    (∀ b0 ∈ p, bindingOK b0 = true) → bindingOK b = false →
    checkBindings (p ++ b :: s) = .fail (bindingErr b) := by
  induction p with
  | nil =>
    intro b s hall hb
    rw [List.nil_append, checkBindings_cons, if_neg (by simp [hb])]
  | cons q qs ih =>
    intro b s hall hb
    rw [List.cons_append, checkBindings_cons, if_pos (by simp [hall q (by simp)])]
    exact ih b s (fun b0 hb0 => hall b0 (by simp [hb0])) hb

/-- C8: once the id, error-status and count rules pass, check succeeds
exactly when every response binding avoids the four reserved values and
carries the [1, 3] root; the first failing binding decides the error,
which is wrapped with the invalid response marker. -/
theorem c8_perBinding (resp : Response) (req : Request)
    (hid : resp.ID = req.ID) (hst : resp.ErrorStatus = 0)
    (hnz : resp.Bindings ≠ [])
    (hmiss : ¬ resp.Bindings.length < req.Bindings.length)
    (hext : ¬(resp.Bindings.length > req.Bindings.length ∧ req.Typ ≠ "GetBulk")) :
    (check resp req = .ok ↔ ∀ b ∈ resp.Bindings, bindingOK b = true)
    ∧ (∀ (p : List Binding) (b : Binding) (s : List Binding),
        resp.Bindings = p ++ b :: s → (∀ b0 ∈ p, bindingOK b0 = true) →
        bindingOK b = false →
        check resp req = .fail (.invalidResponse (bindingErr b)))
    ∧ (∀ (r2 : Response) (q2 : Request) (e : CheckErr),
        check r2 q2 = .fail e → ∃ e0, e = .invalidResponse e0) := by
  have hpass := checkInner_pass resp req hid hst hnz hmiss hext
  refine ⟨?_, ?_, fun r2 q2 e he => check_fail_wrapped r2 q2 e he⟩
  · unfold check
    rw [hpass, wrapResult_eq_ok]
    exact checkBindings_ok_iff _
  · intro p b s hsplit hall hb
    unfold check
    rw [hpass, hsplit, checkBindings_firstFail p b s hall hb]
    rfl


theorem errorText_out (e : Int) (he : e < 0 ∨ 18 < e) : errorText e = "" := by
  unfold errorText
  repeat rw [if_neg (by omega)]

/-- C9: the nineteen RFC 3416 codes 0 to 18 render as their fixed texts,
every code outside that range renders as the numeric fallback, and the
rendering is never the empty string. -/
theorem c9_errorStatusString :
    (errorStatusString 0 = "no error" ∧ errorStatusString 1 = "too big" ∧
     errorStatusString 2 = "no such name" ∧ errorStatusString 3 = "bad value" ∧
     errorStatusString 4 = "read only" ∧ errorStatusString 5 = "gen err" ∧
     errorStatusString 6 = "no access" ∧ errorStatusString 7 = "wrong type" ∧
     errorStatusString 8 = "wrong length" ∧ errorStatusString 9 = "wrong encoding" ∧
     errorStatusString 10 = "wrong value" ∧ errorStatusString 11 = "no creation" ∧
     errorStatusString 12 = "inconsistent value" ∧
     errorStatusString 13 = "resource unavailable" ∧
     errorStatusString 14 = "commit failed" ∧ errorStatusString 15 = "undo failed" ∧
     errorStatusString 16 = "authorization error" ∧
     errorStatusString 17 = "not writable" ∧ errorStatusString 18 = "inconsistent name")
    ∧ (∀ e : Int, e < 0 ∨ 18 < e → errorStatusString e = "code " ++ intStr e)
    ∧ (∀ e : Int, errorStatusString e ≠ "") := by
  refine ⟨by decide, ?_, ?_⟩
  · intro e he
    unfold errorStatusString
    rw [errorText_out e he, if_pos rfl]
  · intro e
    by_cases htext : errorText e = ""
    · unfold errorStatusString
      rw [if_pos htext]
      intro h
      have h2 := congrArg String.length h
      simp [String.length_append] at h2
      exact absurd h2.1 (by decide)
    · unfold errorStatusString
      rw [if_neg htext]
      exact htext

/-- C1 evaluation: for a GetBulk request carrying NonRepeaters 1, the
encoded PDU carries NonRepeaters 0, not the request field. -/
theorem c1_counterexample :
    encodePDU reqC1 = some (PDU.getBulk ⟨1, 0, 2, []⟩) ∧ reqC1.NonRepeaters ≠ 0 := by
  decide

/-- C1 amended: for every GetBulk request the encoded PDU layout is
{RequestID, NonRepeaters, MaxRepetitions, Bindings} with RequestID the
request id, NonRepeaters the constant 0 (the request field is ignored),
MaxRepetitions the request field, and the binding names preserved with
null values. -/
theorem c1_getBulkLayout (req : Request) (h : req.Typ = "GetBulk") :
    encodePDU req = some (.getBulk { RequestID := req.ID, NonRepeaters := 0,
                                     MaxRepetitions := req.MaxRepetitions,
                                     Bindings := nullBindings req.Bindings })
    ∧ (nullBindings req.Bindings).map Binding.Name = req.Bindings.map Binding.Name := by
  constructor
  · unfold encodePDU
    rw [h, if_neg (by decide), if_neg (by decide), if_pos rfl]
  · rw [nullBindings, List.map_map]
    rfl


theorem c1_getBulkLayout_witness :
    encodePDU reqC1w = some (PDU.getBulk ⟨5, 0, 7, []⟩) :=
  (c1_getBulkLayout reqC1w rfl).1

theorem c3_witness :
    Binding.less bC3a bC3b = true ∧ Binding.less bC3b bC3a = false :=
  (c3_less bC3a bC3b).2.1 [6] (by decide) rfl

theorem c4_witness :
    check respC4w reqC4w = CheckResult.fail (.invalidResponse .noBindings) :=
  (c4_bindingCounts respC4w reqC4w rfl rfl).1 rfl

theorem c5_witness :
    Snmp.toString [4, 116, 101, 115, 116] = some [116, 101, 115, 116] :=
  c5_toString.2.1 [116, 101, 115, 116] (by decide) (by decide)

theorem c6_witness :
    convertClass vC6 = some ⟨0, 4, false, [], [4, 9]⟩ :=
  (c6_convertClass vC6).1 rfl (Or.inl rfl) 0x40 [9] rfl

theorem c8_witness : check respC8w reqC8w = CheckResult.ok :=
  (c8_perBinding respC8w reqC8w rfl rfl (by decide) (by decide) (by decide)).1.mpr
    (by decide)

theorem c9_witness : errorStatusString 19 = "code 19" :=
  (c9_errorStatusString.2.1 19 (by omega)).trans (by decide)

theorem c10_witness : convertClass vC10 = some vC10 :=
  (c10_frame vC10).2 (by decide)

end Snmp
